import Mathlib

/-!
Lexra backend: textbook handlers and chunk retrieval.

A shallow embedding of `backend/internal/handlers/textbook.go` and
`backend/internal/database/db.go`.

* Go strings are lists of characters; the string helpers of the Go standard
  library used by the code (`strings.TrimPrefix`, `strings.Split`,
  `strconv.Atoi`, `fmt.Sprintf("%f")`) are modelled by their documented
  behaviour.
* Go `int` is the 64-bit signed integer of the deployment platforms; values
  are `Int` and the range matters only in `Atoi`.
* The storage engine is explicit data: the rows of a table, an optional
  failure of the connection, and the vector operations of the engine.
* HTTP handlers return the response they write together with the list of
  storage operations they invoked, in order.
-/

namespace Lexra

deriving instance DecidableEq for Except

/-! ## Go standard library helpers -/

/-- The function `strings.TrimPrefix`: `s` without the leading `pre`, or `s`
itself when it does not start with `pre`. -/
def TrimPrefix (s pre : List Char) : List Char :=
  if pre.isPrefixOf s then s.drop pre.length else s

/-- The function `strings.Split` for a one-byte separator: the pieces of `s`
between the occurrences of `sep`; never the empty list. -/
def Split (s : List Char) (sep : Char) : List (List Char) :=
  match s with
  | [] => [[]]
  | c :: cs =>
    if c = sep then [] :: Split cs sep
    else
      match Split cs sep with
      | [] => [[c]]
      | seg :: rest => (c :: seg) :: rest

/-- Size of Go `int` in bits (`strconv.IntSize`). -/
def intSize : Nat := 64

/-- One step of the digit loop of `strconv.Atoi`: `n = n*10 + int(ch - '0')`. -/
def digitStep (n : Nat) (ch : Char) : Nat := n * 10 + (ch.toNat - 48)

/-- The digit loop of `strconv.Atoi`: `none` at the first byte that is not a
decimal digit, otherwise the accumulated value. -/
def parseDigits : List Char → Nat → Option Nat
  | [], n => some n
  | ch :: rest, n => if ch.isDigit then parseDigits rest (digitStep n ch) else none

/-- The function `strconv.Atoi`: an optional sign, then at least one decimal
digit and nothing else, the value within the range of `int`. `none` stands
for a non-nil error (syntax or range). -/
def Atoi (s : List Char) : Option Int :=
  match s with
  | [] => none
  | c :: rest =>
    let ds := if c = '-' ∨ c = '+' then rest else s
    if ds = [] then none
    else
      match parseDigits ds 0 with
      | none => none
      | some n =>
        if c = '-' then (if n ≤ 2 ^ (intSize - 1) then some (-(n : Int)) else none)
        else (if n < 2 ^ (intSize - 1) then some (n : Int) else none)

/-- The function `strings.Contains`: `sub` occurs somewhere in `s`. -/
def Contains (s sub : List Char) : Bool :=
  s.tails.any (fun t => sub.isPrefixOf t)

/-! ## `extractIDFromPath` -/

/-- Helper of the handlers: remove the prefix and any trailing parts (like
`/status`), then convert with `Atoi`. The error carries the text
`invalid ID: <idStr>`. -/
def extractIDFromPath (path pre : String) : Except String Int :=
  let idStr := TrimPrefix path.data pre.data
  let idStr := (Split idStr '/').headD []
  match Atoi idStr with
  | none => .error ("invalid ID: " ++ String.mk idStr)
  | some id => .ok id

/-! ## The reference for `extractIDFromPath` -/

/-- The value of a decimal digit character. -/
def digitValue (c : Char) : Nat := c.toNat - '0'.toNat

/-- The number a string of decimal digits denotes, most significant digit
first. -/
def decimalValue (ds : List Char) : Nat :=
  Nat.ofDigits 10 (ds.reverse.map digitValue)

/-- The path with one leading occurrence of the prefix removed, the path
itself if it does not start with the prefix. -/
def afterPrefix (path pre : List Char) : List Char :=
  if pre <+: path then path.drop pre.length else path

/-- The part of `s` before its first `/`. -/
def firstSegment (s : List Char) : List Char :=
  s.takeWhile (fun c => c ≠ '/')

/-- The segment `seg` is an optionally signed, non-empty string of decimal
digits denoting the integer `n`, and `n` fits in `int`. -/
def IsDecimalInt (seg : List Char) (n : Int) : Prop :=
  ∃ sign ds : List Char, seg = sign ++ ds ∧ (sign = [] ∨ sign = ['+'] ∨ sign = ['-']) ∧
    ds ≠ [] ∧ (∀ c ∈ ds, c.isDigit = true) ∧
    n = (if sign = ['-'] then -1 else 1) * (decimalValue ds : Int) ∧
    -(2 : Int) ^ 63 ≤ n ∧ n < (2 : Int) ^ 63

/-! ## `float32` and the verb `%f` -/

/-- A `float32` value. A finite value is `(-1)^neg * mant * 2^exp`; the sign
is kept apart so that negative zero is a value of its own. -/
inductive F32 where
  | finite (neg : Bool) (mant : Nat) (exp : Int)
  | inf (neg : Bool)
  | nan
deriving DecidableEq, Repr

/-- The real number a finite `float32` stands for (`none` for infinities and
NaN). -/
def F32.value : F32 → Option ℚ
  | .finite neg mant exp =>
    some ((if neg then -1 else 1) * (mant : ℚ) * (2 : ℚ) ^ exp)
  | .inf _ => none
  | .nan => none

/-- The magnitude `mant * 2^exp` scaled by `10^6` and rounded to the nearest
integer, ties to even: the digits `%f` prints at its default precision 6. -/
def scaled6 (mant : Nat) (exp : Int) : Nat :=
  if 0 ≤ exp then mant * 2 ^ exp.toNat * 10 ^ 6
  else
    let num := mant * 10 ^ 6
    let den := 2 ^ (-exp).toNat
    let q := num / den
    let r := num % den
    if den < 2 * r ∨ (2 * r = den ∧ q % 2 = 1) then q + 1 else q

/-- Six fractional digits, zero padded on the left. -/
def pad6 (n : Nat) : List Char :=
  let ds := Nat.toDigits 10 n
  List.replicate (6 - ds.length) '0' ++ ds

/-- The text `fmt.Sprintf("%f", v)` for a `float32` `v`. -/
def fmtF : F32 → List Char
  | .nan => ['N', 'a', 'N']
  | .inf neg => (if neg then '-' else '+') :: ['I', 'n', 'f']
  | .finite neg mant exp =>
    let n := scaled6 mant exp
    (if neg then ['-'] else []) ++ Nat.toDigits 10 (n / 10 ^ 6) ++ ['.'] ++ pad6 (n % 10 ^ 6)

/-- The loop of `arrayToString`: `i` is the index of the next element and
`result` the text built so far. -/
def arrayToStringLoop : List F32 → Nat → List Char → List Char
  | [], _, result => result
  | v :: rest, i, result =>
    let result := if i > 0 then result ++ [','] else result
    arrayToStringLoop rest (i + 1) (result ++ fmtF v)

/-- Helper function to convert float slice to string for pgvector. -/
def arrayToString (arr : List F32) : List Char :=
  arrayToStringLoop arr 0 []

/-- The pgvector literal built by `SearchSimilarChunks`:
`fmt.Sprintf("[%v]", arrayToString(queryEmbedding))`. -/
def embeddingLiteral (queryEmbedding : List F32) : List Char :=
  ['['] ++ arrayToString queryEmbedding ++ [']']

/-! ## Records of package `models` -/

/-- The record `models.Textbook`, one row of table `textbooks`. -/
structure Textbook where
  ID : Int
  UserID : Int
  Title : String
  S3Key : String
  UploadedAt : Nat
  Processed : Bool
deriving DecidableEq, Repr

/-- The record `models.Chunk` as `SearchSimilarChunks` fills it. -/
structure Chunk where
  ID : Int
  TextbookID : Int
  Content : String
  PageNumber : Int
  ChunkIndex : Int
  CreatedAt : Nat
deriving DecidableEq, Repr

/-! ## The storage engine -/

/-- One row of table `chunks`; `V` is the engine's vector type. -/
structure ChunkRow (V : Type) where
  id : Int
  textbook_id : Int
  content : String
  page_number : Int
  chunk_index : Int
  created_at : Nat
  embedding : V
deriving DecidableEq

/-- The connection `db.conn` with the state of the store behind it.

* `fault`: when `some e`, every statement fails with the driver error `e`.
* `textbooks`, `chunks`: the rows of the two tables, in the order the engine
  visits them.
* `vectorIn`: the cast `$1::vector` of a text parameter.
* `distance`: the operator `<=>`; `D` is the engine's ordered type of
  distances. It may reject its operands (vectors of different dimensions).
* `limitError`: the text of the driver error for a negative `LIMIT`.
* `nextFault`: when `some n`, the row stream breaks after `n` rows:
  `rows.Next()` then returns false and the error stays in `rows.Err()`.
* `scanFault`: when `some e` for a row, `rows.Scan` fails on it with `e`. -/
structure Conn (V D : Type) where
  fault : Option String
  textbooks : List Textbook
  chunks : List (ChunkRow V)
  vectorIn : List Char → Except String V
  distance : V → V → Except String D
  limitError : String
  nextFault : Option Nat
  scanFault : ChunkRow V → Option String

/-- The value of `embedding <=> $1::vector` for every row, the query failing
as soon as the operator rejects a row. -/
def keyRows {V D : Type} (distance : V → V → Except String D) (q : V) :
    List (ChunkRow V) → Except String (List (D × ChunkRow V))
  | [] => .ok []
  | r :: rs =>
    match distance r.embedding q with
    | .error e => .error e
    | .ok d =>
      match keyRows distance q rs with
      | .error e => .error e
      | .ok ks => .ok ((d, r) :: ks)

/-- The order of `ORDER BY embedding <=> $1::vector`: by distance alone. -/
def keyLE {V D : Type} [LinearOrder D] (a b : D × ChunkRow V) : Prop := a.1 ≤ b.1

instance {V D : Type} [LinearOrder D] : DecidableRel (keyLE : D × ChunkRow V → D × ChunkRow V → Prop) :=
  fun a b => inferInstanceAs (Decidable (a.1 ≤ b.1))

instance {V D : Type} [LinearOrder D] : IsTotal (D × ChunkRow V) keyLE :=
  ⟨fun a b => le_total a.1 b.1⟩

instance {V D : Type} [LinearOrder D] : IsTrans (D × ChunkRow V) keyLE :=
  ⟨fun _ _ _ hab hbc => le_trans hab hbc⟩

/-- The statement of `SearchSimilarChunks` run by the engine:

    SELECT id, textbook_id, content, page_number, chunk_index, created_at,
           embedding <=> $1::vector AS distance
    FROM chunks WHERE textbook_id = $2
    ORDER BY embedding <=> $1::vector LIMIT $3

Rows of equal distance keep the order in which the engine visits them: the
statement names no second sort key. The engine rejects a negative `LIMIT`;
the driver reports that as the error `limitError` of `Query`, as it does a
rejected vector literal or operand. With `LIMIT 0` the engine returns no row
and evaluates the operator on none. -/
def Conn.querySimilar {V D : Type} [LinearOrder D] (conn : Conn V D)
    (embeddingStr : List Char) (textbookID topK : Int) : Except String (List (ChunkRow V)) :=
  match conn.fault with
  | some e => .error e
  | none =>
    match conn.vectorIn embeddingStr with
    | .error e => .error e
    | .ok q =>
      if topK < 0 then .error conn.limitError
      else if topK = 0 then .ok []
      else
        match keyRows conn.distance q (conn.chunks.filter (fun r => r.textbook_id = textbookID)) with
        | .error e => .error e
        | .ok ks => .ok (((ks.insertionSort keyLE).take topK.toNat).map Prod.snd)

/-- Outcome of `QueryRow(...).Scan(...)`: `sql.ErrNoRows`, another error, or
the scanned row. -/
inductive RowResult where
  | errNoRows
  | failed (err : String)
  | row (t : Textbook)
deriving DecidableEq, Repr

/-- The call `db.conn.QueryRow(query, id).Scan(...)` of `GetTextbook`, for the
statement `SELECT ... FROM textbooks WHERE id = $1`. -/
def Conn.queryRowTextbook {V D : Type} (conn : Conn V D) (id : Int) : RowResult :=
  match conn.fault with
  | some e => .failed e
  | none =>
    match conn.textbooks.find? (fun t => t.ID = id) with
    | none => .errNoRows
    | some t => .row t

/-- Modelled from the spec: the number of committed chunk rows of a textbook,
which is what `GetTextbookChunkCount` (absent from the sources) counts. -/
def chunkCount {V D : Type} (conn : Conn V D) (textbookID : Int) : Nat :=
  (conn.chunks.filter (fun r => r.textbook_id = textbookID)).length

/-! ## Package `database` -/

/-- The chunk a successful `rows.Scan` fills from a row: the six columns go
to the fields of the chunk, the distance to a local variable. -/
def ChunkRow.toChunk {V : Type} (r : ChunkRow V) : Chunk :=
  { ID := r.id, TextbookID := r.textbook_id, Content := r.content,
    PageNumber := r.page_number, ChunkIndex := r.chunk_index, CreatedAt := r.created_at }

/-- One `rows.Scan` of `SearchSimilarChunks`. -/
def scanChunk {V D : Type} (conn : Conn V D) (r : ChunkRow V) : Except String Chunk :=
  match conn.scanFault r with
  | some e => .error e
  | none => .ok r.toChunk

/-- The rows for which `rows.Next()` returns true: all rows of the result, or
the first `n` of them when the stream breaks after `n` rows. -/
def Conn.delivered {V D : Type} (conn : Conn V D) (rows : List (ChunkRow V)) :
    List (ChunkRow V) :=
  match conn.nextFault with
  | none => rows
  | some n => rows.take n

/-- The body of the loop `for rows.Next()` of `SearchSimilarChunks` over the
delivered rows; `chunks` is the slice appended to so far. -/
def scanRows {V D : Type} (conn : Conn V D) : List (ChunkRow V) → List Chunk → Except String (List Chunk)
  | [], chunks => .ok chunks
  | r :: rs, chunks =>
    match scanChunk conn r with
    | .error e => .error ("failed to scan chunk: " ++ e)
    | .ok chunk => scanRows conn rs (chunks ++ [chunk])

/-- Finds the most similar chunks to a query embedding. The loop ends when
`rows.Next()` returns false, at the end of the result or on a broken stream;
`rows.Err()` is not read, so both ends return the chunks appended so far. -/
def SearchSimilarChunks {V D : Type} [LinearOrder D] (conn : Conn V D)
    (textbookID : Int) (queryEmbedding : List F32) (topK : Int) : Except String (List Chunk) :=
  let embeddingStr := embeddingLiteral queryEmbedding
  match conn.querySimilar embeddingStr textbookID topK with
  | .error err => .error ("failed to query similar chunks: " ++ err)
  | .ok rows => scanRows conn (conn.delivered rows) []

/-- Retrieve a textbook by ID. -/
def GetTextbook {V D : Type} (conn : Conn V D) (id : Int) : Except String Textbook :=
  match conn.queryRowTextbook id with
  | .errNoRows => .error "textbook not found"
  | .failed err => .error ("failed to get textbook: " ++ err)
  | .row textbook => .ok textbook

/-- The handle `*database.DB`: the connection, and the three methods the
handlers call whose bodies are not part of the sources. -/
structure DB (V D : Type) where
  conn : Conn V D
  ListTextbooks : Int → Except String (List Textbook)
  DeleteTextbook : Int → Int → Except String Unit
  GetTextbookChunkCount : Int → Except String Int

/-! ## Package `handlers` -/

/-- What the handlers read of `*http.Request`. -/
structure Request where
  Method : String
  Path : String
deriving DecidableEq, Repr

/-- The body a handler writes. -/
inductive Body where
  | text (msg : String)
  | textbooks (ts : List Textbook)
  | textbook (t : Textbook)
  | message (msg : String)
  | status (textbook_id : Int) (title : String) (processed : Bool) (chunk_count : Int)
      (uploaded_at : Nat)
deriving DecidableEq, Repr

/-- The response a handler writes: status code and body. -/
structure Response where
  code : Nat
  body : Body
deriving DecidableEq, Repr

/-- The storage operations a handler can invoke. -/
inductive StorageCall where
  | ListTextbooks (userID : Int)
  | GetTextbook (id : Int)
  | DeleteTextbook (id userID : Int)
  | GetTextbookChunkCount (id : Int)
deriving DecidableEq, Repr

/-- The call `http.Error(w, msg, code)`. -/
def httpError (msg : String) (code : Nat) : Response := { code := code, body := .text msg }

/-- A JSON body written without an explicit status code. -/
def jsonOK (body : Body) : Response := { code := 200, body := body }

/-- List all textbooks for the authenticated user. `GetUserID` is
`middleware.GetUserID`; a nil slice and an empty one are the same list. -/
def HandleListTextbooks {V D : Type} (GetUserID : Request → Option Int) (db : DB V D)
    (r : Request) : Response × List StorageCall :=
  if r.Method ≠ "GET" then (httpError "Method not allowed" 405, [])
  else
    match GetUserID r with
    | none => (httpError "Unauthorized" 401, [])
    | some userID =>
      match db.ListTextbooks userID with
      | .error _ => (httpError "Failed to list textbooks" 500, [.ListTextbooks userID])
      | .ok textbooks => (jsonOK (.textbooks textbooks), [.ListTextbooks userID])

/-- Get a single textbook by ID. -/
def HandleGetTextbook {V D : Type} (GetUserID : Request → Option Int) (db : DB V D)
    (r : Request) : Response × List StorageCall :=
  if r.Method ≠ "GET" then (httpError "Method not allowed" 405, [])
  else
    match GetUserID r with
    | none => (httpError "Unauthorized" 401, [])
    | some userID =>
      match extractIDFromPath r.Path "/api/textbooks/" with
      | .error _ => (httpError "Invalid textbook ID" 400, [])
      | .ok textbookID =>
        match GetTextbook db.conn textbookID with
        | .error _ => (httpError "Textbook not found" 404, [.GetTextbook textbookID])
        | .ok textbook =>
          if textbook.UserID ≠ userID then
            (httpError "Permission denied" 403, [.GetTextbook textbookID])
          else (jsonOK (.textbook textbook), [.GetTextbook textbookID])

/-- Delete a textbook. -/
def HandleDeleteTextbook {V D : Type} (GetUserID : Request → Option Int) (db : DB V D)
    (r : Request) : Response × List StorageCall :=
  if r.Method ≠ "DELETE" then (httpError "Method not allowed" 405, [])
  else
    match GetUserID r with
    | none => (httpError "Unauthorized" 401, [])
    | some userID =>
      match extractIDFromPath r.Path "/api/textbooks/" with
      | .error _ => (httpError "Invalid textbook ID" 400, [])
      | .ok textbookID =>
        match db.DeleteTextbook textbookID userID with
        | .error err =>
          if Contains err.data "permission denied".data then
            (httpError "Permission denied" 403, [.DeleteTextbook textbookID userID])
          else if Contains err.data "not found".data then
            (httpError "Textbook not found" 404, [.DeleteTextbook textbookID userID])
          else (httpError "Failed to delete textbook" 500, [.DeleteTextbook textbookID userID])
        | .ok _ =>
          (jsonOK (.message "Textbook deleted successfully"), [.DeleteTextbook textbookID userID])

/-- Get textbook processing status. -/
def HandleGetTextbookStatus {V D : Type} (GetUserID : Request → Option Int) (db : DB V D)
    (r : Request) : Response × List StorageCall :=
  if r.Method ≠ "GET" then (httpError "Method not allowed" 405, [])
  else
    match GetUserID r with
    | none => (httpError "Unauthorized" 401, [])
    | some userID =>
      match extractIDFromPath r.Path "/api/textbooks/" with
      | .error _ => (httpError "Invalid textbook ID" 400, [])
      | .ok textbookID =>
        match GetTextbook db.conn textbookID with
        | .error _ => (httpError "Textbook not found" 404, [.GetTextbook textbookID])
        | .ok textbook =>
          if textbook.UserID ≠ userID then
            (httpError "Permission denied" 403, [.GetTextbook textbookID])
          else
            let chunkCount :=
              match db.GetTextbookChunkCount textbookID with
              | .error _ => 0
              | .ok n => n
            (jsonOK (.status textbook.ID textbook.Title textbook.Processed chunkCount
                textbook.UploadedAt),
              [.GetTextbook textbookID, .GetTextbookChunkCount textbookID])

/-! ## Example stores and requests -/

/-- A vector cast that keeps the literal and rejects the empty vector. -/
def exVectorIn (s : List Char) : Except String (List Char) :=
  if s = ['[', ']'] then .error "vector must have at least 1 dimension" else .ok s

/-- Number of components of a kept literal. -/
def exDim (v : List Char) : Nat := v.count ',' + 1

/-- A discrete distance: 0 between equal vectors, 1 otherwise, and an error
for vectors of different dimensions. -/
def exDistance (a b : List Char) : Except String Nat :=
  if exDim a ≠ exDim b then .error "different vector dimensions"
  else .ok (if a = b then 0 else 1)

/-- Textbook 5 of user 9, not yet processed. -/
def exTextbook : Textbook :=
  { ID := 5, UserID := 9, Title := "Algebra", S3Key := "books/5.pdf",
    UploadedAt := 1700000000, Processed := false }

/-- The same textbook with every field but id and owner changed. -/
def exTextbookAlt : Textbook :=
  { ID := 5, UserID := 9, Title := "Geometry", S3Key := "books/other.pdf",
    UploadedAt := 1800000000, Processed := true }

/-- A chunk row of textbook 5 with a two-component embedding. -/
def exRow (id chunkIndex : Int) (embedding : String) : ChunkRow (List Char) :=
  { id := id, textbook_id := 5, content := "text", page_number := 1,
    chunk_index := chunkIndex, created_at := 1700000001, embedding := embedding.data }

/-- A healthy store: textbook 5 with three chunks; the chunk of index 1 is
visited before the chunk of index 0 and both carry the same embedding. -/
def exConn : Conn (List Char) Nat :=
  { fault := none
    textbooks := [exTextbook]
    chunks := [exRow 11 1 "[1.000000,0.000000]", exRow 10 0 "[1.000000,0.000000]",
      exRow 12 2 "[0.000000,1.000000]"]
    vectorIn := exVectorIn
    distance := exDistance
    limitError := "pq: LIMIT must not be negative (2201W)"
    nextFault := none
    scanFault := fun _ => none }

/-- The same store behind a connection that fails. -/
def exConnDown : Conn (List Char) Nat :=
  { exConn with fault := some "connection refused" }

/-- The same store with a row stream that breaks after the first row. -/
def exConnCut : Conn (List Char) Nat :=
  { exConn with nextFault := some 1 }

/-- The store with textbook 5 replaced by `exTextbookAlt`. -/
def exConnAlt : Conn (List Char) Nat :=
  { exConn with textbooks := [exTextbookAlt] }

/-- A handle over a connection whose chunk count fails or reports `n`. -/
def exDB (conn : Conn (List Char) Nat) (count : Except String Int) : DB (List Char) Nat :=
  { conn := conn
    ListTextbooks := fun _ => .ok []
    DeleteTextbook := fun _ _ => .ok ()
    GetTextbookChunkCount := fun _ => count }

/-- Identity resolution that finds the given caller, if any. -/
def exAuth (caller : Option Int) : Request → Option Int := fun _ => caller

/-- The request `GET /api/textbooks/5`. -/
def exGet : Request := { Method := "GET", Path := "/api/textbooks/5" }

/-- The request `GET /api/textbooks/5/status`. -/
def exGetStatus : Request := { Method := "GET", Path := "/api/textbooks/5/status" }

/-- The query embedding (1, 0): its literal is the embedding of the chunks of
index 1 and 0 in `exConn`. -/
def exQuery : List F32 := [.finite false 1 0, .finite false 0 0]

/-- A query embedding with one component, while the stored vectors have two. -/
def exQueryShort : List F32 := [.finite false 1 0]

/-- The `float32` nearest to 0.0000001 (bits `0x33d6bf95`). -/
def exTiny1 : F32 := .finite false 14073749 (-47)

/-- The `float32` nearest to 0.0000002 (bits `0x3456bf95`). -/
def exTiny2 : F32 := .finite false 14073749 (-46)

/-- The request `GET /api/textbooks/abc`, whose id segment is not a number. -/
def exGetBad : Request := { Method := "GET", Path := "/api/textbooks/abc" }

/-- The request `DELETE /api/textbooks/5`. -/
def exDelete : Request := { Method := "DELETE", Path := "/api/textbooks/5" }

/-- The request `POST /api/textbooks`. -/
def exPost : Request := { Method := "POST", Path := "/api/textbooks" }

/-! ## Decimal numerals -/

theorem digitChar_isDigit : ∀ k < 10, (Nat.digitChar k).isDigit = true ∧
    (Nat.digitChar k).toNat - 48 = k ∧ digitValue (Nat.digitChar k) = k := by
  decide

theorem foldl_digitStep (ds : List Char) (a : Nat) :
    ds.foldl digitStep a = a * 10 ^ ds.length + decimalValue ds := by
  induction ds generalizing a with
  | nil => simp [decimalValue]
  | cons c t ih =>
    rw [List.foldl_cons, ih]
    simp only [decimalValue, List.reverse_cons, List.map_append, List.map_cons, List.map_nil,
      Nat.ofDigits_append, Nat.ofDigits_singleton, List.length_map, List.length_reverse,
      List.length_cons, digitStep, digitValue]
    have h48 : '0'.toNat = 48 := by decide
    rw [h48]
    ring

theorem decimalValue_append_singleton (ds : List Char) (c : Char) :
    decimalValue (ds ++ [c]) = decimalValue ds * 10 + digitValue c := by
  simp only [decimalValue, List.reverse_append, List.reverse_cons, List.reverse_nil,
    List.nil_append, List.singleton_append, List.map_cons, Nat.ofDigits_cons]
  ring

theorem parseDigits_eq_some (ds : List Char) (a m : Nat) :
    parseDigits ds a = some m ↔
      (∀ c ∈ ds, c.isDigit = true) ∧ m = a * 10 ^ ds.length + decimalValue ds := by
  induction ds generalizing a with
  | nil =>
    simp only [parseDigits, decimalValue, List.reverse_nil, List.map_nil, Nat.ofDigits_nil,
      List.length_nil, pow_zero, mul_one, add_zero, List.not_mem_nil, false_imp_iff,
      forall_const, true_and, Option.some.injEq]
    exact eq_comm
  | cons c t ih =>
    by_cases hc : c.isDigit = true
    · have hstep := foldl_digitStep [c] a
      simp only [List.foldl_cons, List.foldl_nil, List.length_singleton, pow_one] at hstep
      have hval : decimalValue (c :: t) = decimalValue [c] * 10 ^ t.length + decimalValue t := by
        have h1 := foldl_digitStep (c :: t) 0
        have h2 := foldl_digitStep [c] 0
        have h3 := foldl_digitStep t (digitStep 0 c)
        simp only [List.foldl_cons, List.foldl_nil, zero_mul, zero_add] at h1 h2 h3
        rw [← h1, h3, h2]
      simp only [parseDigits, hc, if_true, ih, List.mem_cons, forall_eq_or_imp, true_and,
        and_congr_right_iff]
      intro _
      rw [hstep, hval, List.length_cons]
      constructor <;> intro h <;> rw [h] <;> ring
    · simp [parseDigits, hc]

theorem toDigitsCore_spec (fuel : Nat) : ∀ (n : Nat) (ds : List Char), n < fuel →
    ∃ L : List Char, Nat.toDigitsCore 10 fuel n ds = L ++ ds ∧ L ≠ [] ∧
      (∀ c ∈ L, c.isDigit = true) ∧ decimalValue L = n := by
  induction fuel with
  | zero => intro n ds h; omega
  | succ fuel ih =>
    intro n ds hn
    have hd := digitChar_isDigit (n % 10) (Nat.mod_lt _ (by decide))
    by_cases h0 : n / 10 = 0
    · refine ⟨[Nat.digitChar (n % 10)], ?_, by simp, ?_, ?_⟩
      · simp [Nat.toDigitsCore, h0]
      · simpa using hd.1
      · have : decimalValue [Nat.digitChar (n % 10)] = digitValue (Nat.digitChar (n % 10)) := by
          simp [decimalValue]
        rw [this, hd.2.2]
        omega
    · have hlt : n / 10 < fuel := by omega
      obtain ⟨L, hL, hne, hdig, hval⟩ := ih (n / 10) (Nat.digitChar (n % 10) :: ds) hlt
      refine ⟨L ++ [Nat.digitChar (n % 10)], ?_, by simp, ?_, ?_⟩
      · simp [Nat.toDigitsCore, h0, hL]
      · intro c hc
        rcases List.mem_append.1 hc with h | h
        · exact hdig c h
        · rw [List.mem_singleton.1 h]; exact hd.1
      · rw [decimalValue_append_singleton, hval, hd.2.2]
        omega

theorem toDigits_spec (n : Nat) :
    Nat.toDigits 10 n ≠ [] ∧ (∀ c ∈ Nat.toDigits 10 n, c.isDigit = true) ∧
      decimalValue (Nat.toDigits 10 n) = n := by
  obtain ⟨L, hL, hne, hdig, hval⟩ := toDigitsCore_spec (n + 1) n [] (Nat.lt_succ_self n)
  have : Nat.toDigits 10 n = L := by simp [Nat.toDigits, hL]
  rw [this]
  exact ⟨hne, hdig, hval⟩

theorem decimalValue_cons (c : Char) (t : List Char) :
    decimalValue (c :: t) = digitValue c * 10 ^ t.length + decimalValue t := by
  have h1 := foldl_digitStep (c :: t) 0
  have h2 := foldl_digitStep t (digitStep 0 c)
  simp only [List.foldl_cons, zero_mul, zero_add] at h1
  rw [← h1, h2]
  simp [digitStep, digitValue]

theorem decimalValue_zeros (k : Nat) (ds : List Char) :
    decimalValue (List.replicate k '0' ++ ds) = decimalValue ds := by
  induction k with
  | zero => simp
  | succ k ih =>
    rw [List.replicate_succ, List.cons_append, decimalValue_cons, ih]
    simp [digitValue]

theorem isDigit_ne_comma (c : Char) (h : c.isDigit = true) : c ≠ ',' := by
  rintro rfl
  exact absurd h (by decide)

theorem pad6_spec (m : Nat) (hm : m < 10 ^ 6) :
    (pad6 m).length = 6 ∧ (∀ c ∈ pad6 m, c.isDigit = true) ∧ decimalValue (pad6 m) = m := by
  obtain ⟨_, hdig, hval⟩ := toDigits_spec m
  have hlen : (Nat.toDigits 10 m).length ≤ 6 :=
    Nat.toDigitsCore_length 10 (by decide) (m + 1) m 6 hm (by decide)
  refine ⟨?_, ?_, ?_⟩
  · simp only [pad6, List.length_append, List.length_replicate]
    omega
  · intro c hc
    simp only [pad6, List.mem_append] at hc
    rcases hc with h | h
    · rw [(List.mem_replicate.1 h).2]; decide
    · exact hdig c h
  · simp only [pad6]
    rw [decimalValue_zeros, hval]

/-! ## Rounding to six decimals -/

theorem round_half_even_bound (num d : Nat) (hd : 0 < d) :
    let q := num / d
    let r := num % d
    let n := if d < 2 * r ∨ (2 * r = d ∧ q % 2 = 1) then q + 1 else q
    2 * (n * d) ≤ 2 * num + d ∧ 2 * num ≤ 2 * (n * d) + d := by
  intro q r n
  have hdm : d * q + r = num := Nat.div_add_mod num d
  have hr : r < d := Nat.mod_lt _ hd
  by_cases hc : d < 2 * r ∨ (2 * r = d ∧ q % 2 = 1)
  · have hn : n = q + 1 := if_pos hc
    have e : n * d = d * q + d := by rw [hn]; ring
    rw [e]
    rcases hc with h | h <;> omega
  · have hn : n = q := if_neg hc
    have e : n * d = d * q := by rw [hn]; ring
    rw [e]
    have : 2 * r ≤ d := by
      by_contra h'
      exact hc (Or.inl (by omega))
    omega

theorem scaled6_error (mant : Nat) (exp : Int) :
    |((scaled6 mant exp : ℚ) / 10 ^ 6) - (mant : ℚ) * (2 : ℚ) ^ exp| ≤ 1 / (2 * 10 ^ 6) := by
  by_cases he : 0 ≤ exp
  · obtain ⟨m, rfl⟩ := Int.eq_ofNat_of_zero_le he
    have hs : scaled6 mant (m : Int) = mant * 2 ^ m * 10 ^ 6 := by
      simp [scaled6]
    rw [hs, zpow_natCast]
    have e : ((mant * 2 ^ m * 10 ^ 6 : Nat) : ℚ) / 10 ^ 6 - mant * 2 ^ m = 0 := by
      push_cast
      norm_num
    rw [e, abs_zero]
    positivity
  · obtain ⟨m, rfl⟩ : ∃ m : Nat, exp = -(m : Int) := ⟨(-exp).toNat, by omega⟩
    have hd : 0 < 2 ^ m := by positivity
    obtain ⟨h1, h2⟩ := round_half_even_bound (mant * 10 ^ 6) (2 ^ m) hd
    have hs : scaled6 mant (-(m : Int)) = (if 2 ^ m < 2 * (mant * 10 ^ 6 % 2 ^ m) ∨
        (2 * (mant * 10 ^ 6 % 2 ^ m) = 2 ^ m ∧ mant * 10 ^ 6 / 2 ^ m % 2 = 1)
        then mant * 10 ^ 6 / 2 ^ m + 1 else mant * 10 ^ 6 / 2 ^ m) := by
      simp only [scaled6, he, if_false, neg_neg, Int.toNat_ofNat]
    simp only at h1 h2
    rw [← hs] at h1 h2
    have hz : (2 : ℚ) ^ (-(m : Int)) = 1 / ((2 ^ m : Nat) : ℚ) := by
      rw [zpow_neg, zpow_natCast]
      simp
    rw [hz]
    generalize scaled6 mant (-(m : Int)) = n at h1 h2
    generalize 2 ^ m = d at h1 h2 hd
    have hdq : (0 : ℚ) < d := by exact_mod_cast hd
    have h1q : 2 * ((n : ℚ) * d) ≤ 2 * ((mant : ℚ) * 10 ^ 6) + d := by exact_mod_cast h1
    have h2q : 2 * ((mant : ℚ) * 10 ^ 6) ≤ 2 * ((n : ℚ) * d) + d := by exact_mod_cast h2
    have key : (n : ℚ) / 10 ^ 6 - mant * (1 / d)
        = ((n : ℚ) * d - mant * 10 ^ 6) / (10 ^ 6 * d) := by
      field_simp
      ring
    have hpos : (0 : ℚ) < 10 ^ 6 * d := by positivity
    rw [key, abs_le]
    constructor
    · rw [le_div_iff₀ hpos]
      have : -(1 / (2 * 10 ^ 6 : ℚ)) * (10 ^ 6 * d) = -(d / 2) := by
        field_simp
        ring
      rw [this]
      linarith
    · rw [div_le_iff₀ hpos]
      have : (1 / (2 * 10 ^ 6 : ℚ)) * (10 ^ 6 * d) = d / 2 := by
        field_simp
        ring
      rw [this]
      linarith

/-! ## The text of the vector literal -/

theorem fmtF_finite_spec (neg : Bool) (mant : Nat) (exp : Int) :
    ∃ I F : List Char,
      fmtF (.finite neg mant exp) = (if neg then ['-'] else []) ++ I ++ ['.'] ++ F ∧
      I ≠ [] ∧ (∀ c ∈ I ++ F, c.isDigit = true) ∧ F.length = 6 ∧
      decimalValue I * 10 ^ 6 + decimalValue F = scaled6 mant exp := by
  obtain ⟨hne, hdig, hval⟩ := toDigits_spec (scaled6 mant exp / 10 ^ 6)
  obtain ⟨hlen, hdigF, hvalF⟩ := pad6_spec (scaled6 mant exp % 10 ^ 6)
    (Nat.mod_lt _ (by norm_num))
  refine ⟨Nat.toDigits 10 (scaled6 mant exp / 10 ^ 6), pad6 (scaled6 mant exp % 10 ^ 6),
    rfl, hne, ?_, hlen, ?_⟩
  · intro c hc
    rcases List.mem_append.1 hc with h | h
    · exact hdig c h
    · exact hdigF c h
  · rw [hval, hvalF]
    exact Nat.div_add_mod' _ _

theorem fmtF_no_comma (v : F32) : ',' ∉ fmtF v := by
  cases v with
  | nan => decide
  | inf neg => cases neg <;> decide
  | finite neg mant exp =>
    obtain ⟨I, F, hfmt, _, hdig, _, _⟩ := fmtF_finite_spec neg mant exp
    rw [hfmt]
    intro hmem
    simp only [List.mem_append, List.mem_singleton] at hmem
    rcases hmem with ((h | h) | h) | h
    · cases neg
      · simp at h
      · simp at h
    · exact isDigit_ne_comma _ (hdig _ (List.mem_append_left _ h)) rfl
    · exact absurd h (by decide)
    · exact isDigit_ne_comma _ (hdig _ (List.mem_append_right _ h)) rfl

theorem arrayToStringLoop_succ (arr : List F32) : ∀ (i : Nat) (result : List Char),
    arrayToStringLoop arr (i + 1) result
      = result ++ (arr.map (fun v => ',' :: fmtF v)).flatten := by
  induction arr with
  | nil => intro i result; simp [arrayToStringLoop]
  | cons v rest ih =>
    intro i result
    simp only [arrayToStringLoop, Nat.succ_pos, if_true, gt_iff_lt, ih, List.map_cons,
      List.flatten_cons]
    simp

theorem intercalate_comma (x : List Char) (xs : List (List Char)) :
    [','].intercalate (x :: xs) = x ++ (xs.map (fun y => ',' :: y)).flatten := by
  induction xs generalizing x with
  | nil => simp [List.intercalate]
  | cons y ys ih =>
    have := ih y
    simp only [List.intercalate] at this ⊢
    simp [this]

theorem arrayToString_eq_intercalate (arr : List F32) :
    arrayToString arr = [','].intercalate (arr.map fmtF) := by
  cases arr with
  | nil => simp [arrayToString, arrayToStringLoop, List.intercalate]
  | cons v rest =>
    rw [List.map_cons, intercalate_comma]
    simp only [arrayToString, arrayToStringLoop, Nat.lt_irrefl, if_false, gt_iff_lt,
      List.nil_append, arrayToStringLoop_succ, List.map_map]
    rfl

/-! ## Path segments and `Atoi` -/

theorem Split_headD (s : List Char) : (Split s '/').headD [] = firstSegment s := by
  induction s with
  | nil => simp [Split, firstSegment]
  | cons c cs ih =>
    by_cases hc : c = '/'
    · simp [Split, firstSegment, hc]
    · have hstep : (Split (c :: cs) '/').headD [] = c :: (Split cs '/').headD [] := by
        simp only [Split, hc, if_false]
        cases Split cs '/' <;> simp
      rw [hstep, ih]
      simp [firstSegment, hc]

theorem TrimPrefix_eq_afterPrefix (path pre : List Char) :
    TrimPrefix path pre = afterPrefix path pre := by
  by_cases h : pre <+: path
  · simp [TrimPrefix, afterPrefix, h]
  · simp [TrimPrefix, afterPrefix, h]

theorem parseDigits_zero (ds : List Char) (m : Nat) :
    parseDigits ds 0 = some m ↔ (∀ c ∈ ds, c.isDigit = true) ∧ m = decimalValue ds := by
  rw [parseDigits_eq_some]
  simp

theorem Atoi_eq_some_iff (s : List Char) (n : Int) : Atoi s = some n ↔ IsDecimalInt s n := by
  have h63 : intSize - 1 = 63 := by decide
  constructor
  · intro h
    cases s with
    | nil => simp [Atoi] at h
    | cons c rest =>
      simp only [Atoi, h63] at h
      by_cases hm : c = '-'
      · subst hm
        simp only [true_or, if_true] at h
        by_cases hr : rest = []
        · simp [hr] at h
        · simp only [hr, if_false] at h
          cases hp : parseDigits rest 0 with
          | none => simp [hp] at h
          | some m =>
            simp only [hp] at h
            obtain ⟨hdig, hval⟩ := (parseDigits_zero rest m).1 hp
            by_cases hle : m ≤ 2 ^ 63
            · simp only [hle, if_true, Option.some.injEq] at h
              refine ⟨['-'], rest, rfl, Or.inr (Or.inr rfl), hr, hdig, ?_, ?_, ?_⟩
              · simp [← h, hval]
              · rw [← h]; push_cast; omega
              · rw [← h]; omega
            · rw [if_neg hle] at h; exact absurd h (by simp)
      · by_cases hp' : c = '+'
        · subst hp'
          simp only [or_true, if_true] at h
          by_cases hr : rest = []
          · simp [hr] at h
          · simp only [hr, if_false] at h
            cases hp : parseDigits rest 0 with
            | none => simp [hp] at h
            | some m =>
              simp only [hp] at h
              obtain ⟨hdig, hval⟩ := (parseDigits_zero rest m).1 hp
              have hneq : ¬ ('+' = '-') := by decide
              simp only [hneq, if_false] at h
              by_cases hlt : m < 2 ^ 63
              · simp only [hlt, if_true, Option.some.injEq] at h
                refine ⟨['+'], rest, rfl, Or.inr (Or.inl rfl), hr, hdig, ?_, ?_, ?_⟩
                · simp [← h, hval]
                · rw [← h]; omega
                · rw [← h]; exact_mod_cast hlt
              · rw [if_neg hlt] at h; exact absurd h (by simp)
        · simp only [hm, hp', or_self, if_false] at h
          cases hp : parseDigits (c :: rest) 0 with
          | none => simp [hp] at h
          | some m =>
            simp only [hp] at h
            obtain ⟨hdig, hval⟩ := (parseDigits_zero (c :: rest) m).1 hp
            by_cases hlt : m < 2 ^ 63
            · simp only [hlt, if_true, Option.some.injEq] at h
              have h' : (m : Int) = n := by simpa using h
              refine ⟨[], c :: rest, rfl, Or.inl rfl, by simp, hdig, ?_, ?_, ?_⟩
              · simp [← h', hval]
              · rw [← h']; omega
              · rw [← h']; exact_mod_cast hlt
            · rw [if_neg hlt] at h; exact absurd h (by simp)
  · rintro ⟨sign, ds, hs, hsign, hne, hdig, hn, hlo, hhi⟩
    have hparse : parseDigits ds 0 = some (decimalValue ds) :=
      (parseDigits_zero ds _).2 ⟨hdig, rfl⟩
    rcases hsign with h | h | h
    · subst h
      simp only [List.nil_append] at hs
      subst hs
      cases s with
      | nil => exact absurd rfl hne
      | cons c rest =>
        have hc : c.isDigit = true := hdig c (List.mem_cons_self _ _)
        have hm : c ≠ '-' := by rintro rfl; exact absurd hc (by decide)
        have hp : c ≠ '+' := by rintro rfl; exact absurd hc (by decide)
        have hn' : n = (decimalValue (c :: rest) : Int) := by simpa using hn
        have hlt : decimalValue (c :: rest) < 2 ^ 63 := by
          rw [hn'] at hhi; exact_mod_cast hhi
        simp [Atoi, h63, hm, hp, hparse, hn']
        omega
    · subst h
      subst hs
      have hn' : n = (decimalValue ds : Int) := by simpa using hn
      have hlt : decimalValue ds < 2 ^ 63 := by
        rw [hn'] at hhi; exact_mod_cast hhi
      have hneq : ¬ ('+' = '-') := by decide
      simp [Atoi, h63, hne, hparse, hn', hneq]
      omega
    · subst h
      subst hs
      have hn' : n = -(decimalValue ds : Int) := by simpa using hn
      have hle : decimalValue ds ≤ 2 ^ 63 := by
        rw [hn'] at hlo
        have : (decimalValue ds : Int) ≤ 2 ^ 63 := by omega
        exact_mod_cast this
      simp [Atoi, h63, hne, hparse, hn']
      omega

theorem Atoi_eq_none_iff (s : List Char) : Atoi s = none ↔ ¬ ∃ n, IsDecimalInt s n := by
  constructor
  · rintro h ⟨n, hn⟩
    rw [(Atoi_eq_some_iff s n).2 hn] at h
    exact absurd h (by simp)
  · intro h
    cases hA : Atoi s with
    | none => rfl
    | some n => exact absurd ⟨n, (Atoi_eq_some_iff s n).1 hA⟩ h

theorem extractIDFromPath_ok_iff (path pre : String) (n : Int) :
    extractIDFromPath path pre = .ok n ↔
      IsDecimalInt (firstSegment (afterPrefix path.data pre.data)) n := by
  rw [← Atoi_eq_some_iff, ← TrimPrefix_eq_afterPrefix, ← Split_headD]
  simp only [extractIDFromPath]
  cases Atoi ((Split (TrimPrefix path.data pre.data) '/').headD []) <;> simp

theorem extractIDFromPath_error_iff (path pre : String) :
    (∃ e, extractIDFromPath path pre = .error e) ↔
      ¬ ∃ n, IsDecimalInt (firstSegment (afterPrefix path.data pre.data)) n := by
  rw [← Atoi_eq_none_iff, ← TrimPrefix_eq_afterPrefix, ← Split_headD]
  simp only [extractIDFromPath]
  cases Atoi ((Split (TrimPrefix path.data pre.data) '/').headD []) <;> simp

theorem afterPrefix_append (pre s : List Char) : afterPrefix (pre ++ s) pre = s := by
  simp [afterPrefix]

theorem firstSegment_digits (ds rest : List Char) (hdig : ∀ c ∈ ds, c.isDigit = true) :
    firstSegment ds = ds ∧ firstSegment (ds ++ '/' :: rest) = ds := by
  induction ds with
  | nil => simp [firstSegment]
  | cons c t ih =>
    have hc : c.isDigit = true := hdig c (List.mem_cons_self _ _)
    have hne : c ≠ '/' := by rintro rfl; exact absurd hc (by decide)
    have ih' := ih (fun c hc => hdig c (List.mem_cons_of_mem _ hc))
    have h1 : decide (c ≠ '/') = true := by simp [hne]
    unfold firstSegment at ih' ⊢
    constructor
    · rw [List.takeWhile_cons, if_pos h1, ih'.1]
    · rw [List.cons_append, List.takeWhile_cons, if_pos h1, ih'.2]

theorem toDigits_isDecimalInt (k : Nat) (hk : k < 2 ^ 63) :
    IsDecimalInt (Nat.toDigits 10 k) (k : Int) := by
  obtain ⟨hne, hdig, hval⟩ := toDigits_spec k
  refine ⟨[], Nat.toDigits 10 k, rfl, Or.inl rfl, hne, hdig, ?_, ?_, ?_⟩
  · simp [hval]
  · omega
  · exact_mod_cast hk

/-! ## The similarity query -/

theorem scanRows_of_ok {V D : Type} (conn : Conn V D) (rows : List (ChunkRow V)) :
    ∀ (acc cs : List Chunk), scanRows conn rows acc = .ok cs →
      cs = acc ++ rows.map ChunkRow.toChunk := by
  induction rows with
  | nil => intro acc cs h; simp [scanRows] at h; simp [h]
  | cons r rs ih =>
    intro acc cs h
    cases hf : conn.scanFault r with
    | some e => simp [scanRows, scanChunk, hf] at h
    | none =>
      simp only [scanRows, scanChunk, hf] at h
      rw [ih _ _ h]
      simp

theorem scanRows_no_fault {V D : Type} (conn : Conn V D) (rows : List (ChunkRow V))
    (hrows : ∀ r ∈ rows, conn.scanFault r = none) :
    ∀ acc : List Chunk, scanRows conn rows acc = .ok (acc ++ rows.map ChunkRow.toChunk) := by
  induction rows with
  | nil => intro acc; simp [scanRows]
  | cons r rs ih =>
    intro acc
    have hf : conn.scanFault r = none := hrows r (List.mem_cons_self _ _)
    simp only [scanRows, scanChunk, hf]
    rw [ih (fun r hr => hrows r (List.mem_cons_of_mem _ hr))]
    simp

theorem scanRows_of_error {V D : Type} (conn : Conn V D) (rows : List (ChunkRow V)) :
    ∀ (acc : List Chunk) (msg : String), scanRows conn rows acc = .error msg →
      ∃ e, msg = "failed to scan chunk: " ++ e := by
  induction rows with
  | nil => intro acc msg h; simp [scanRows] at h
  | cons r rs ih =>
    intro acc msg h
    cases hf : conn.scanFault r with
    | some e =>
      simp only [scanRows, scanChunk, hf, Except.error.injEq] at h
      exact ⟨e, h.symm⟩
    | none =>
      simp only [scanRows, scanChunk, hf] at h
      exact ih _ _ h

theorem keyRows_of_ok {V D : Type} (distance : V → V → Except String D) (q : V)
    (rs : List (ChunkRow V)) : ∀ ks, keyRows distance q rs = .ok ks →
      ks.map Prod.snd = rs ∧ ∀ p ∈ ks, distance p.2.embedding q = .ok p.1 := by
  induction rs with
  | nil => intro ks h; simp [keyRows] at h; subst h; simp
  | cons r rs ih =>
    intro ks h
    cases hd : distance r.embedding q with
    | error e => simp [keyRows, hd] at h
    | ok d =>
      cases hk : keyRows distance q rs with
      | error e => simp [keyRows, hd, hk] at h
      | ok ks' =>
        simp only [keyRows, hd, hk, Except.ok.injEq] at h
        obtain ⟨h1, h2⟩ := ih ks' hk
        subst h
        refine ⟨by simp [h1], ?_⟩
        intro p hp
        rcases List.mem_cons.1 hp with rfl | hp
        · exact hd
        · exact h2 p hp

theorem keyRows_of_reject {V D : Type} (distance : V → V → Except String D) (q : V)
    (rs : List (ChunkRow V)) (r : ChunkRow V) (e : String) (hr : r ∈ rs)
    (hd : distance r.embedding q = .error e) : ∃ e', keyRows distance q rs = .error e' := by
  induction rs with
  | nil => exact absurd hr (List.not_mem_nil r)
  | cons x xs ih =>
    cases hx : distance x.embedding q with
    | error e' => exact ⟨e', by simp [keyRows, hx]⟩
    | ok d =>
      rcases List.mem_cons.1 hr with rfl | hmem
      · rw [hd] at hx
        exact absurd hx (by simp)
      · obtain ⟨e', he'⟩ := ih hmem
        exact ⟨e', by simp [keyRows, hx, he']⟩

theorem querySimilar_of_ok {V D : Type} [LinearOrder D] (conn : Conn V D) (s : List Char)
    (T k : Int) (rows : List (ChunkRow V)) (h : conn.querySimilar s T k = .ok rows) :
    0 ≤ k ∧ conn.fault = none ∧ ∃ (q : V) (sel : List (D × ChunkRow V)),
      conn.vectorIn s = .ok q ∧ rows = sel.map Prod.snd ∧
      (∀ p ∈ sel, conn.distance p.2.embedding q = .ok p.1) ∧
      sel.Pairwise keyLE ∧
      (sel.map Prod.snd).Subperm (conn.chunks.filter (fun r => r.textbook_id = T)) ∧
      sel.length ≤ k.toNat := by
  unfold Conn.querySimilar at h
  cases hf : conn.fault with
  | some e => simp [hf] at h
  | none =>
    cases hv : conn.vectorIn s with
    | error e => simp [hf, hv] at h
    | ok q =>
      by_cases hk : k < 0
      · simp [hf, hv, hk] at h
      · by_cases hk0 : k = 0
        · subst hk0
          simp only [hf, hv, lt_self_iff_false, if_false, if_true, Except.ok.injEq] at h
          exact ⟨le_refl 0, rfl, q, [], rfl, by simp [← h], by simp, List.Pairwise.nil,
            by simp, by simp⟩
        · cases hks : keyRows conn.distance q
              (conn.chunks.filter (fun r => r.textbook_id = T)) with
          | error e => simp [hf, hv, hk, hk0, hks] at h
          | ok ks =>
            simp only [hf, hv, hk, hk0, hks, if_false, Except.ok.injEq] at h
            obtain ⟨hsnd, hdist⟩ := keyRows_of_ok conn.distance q _ ks hks
            refine ⟨by omega, rfl, q, (ks.insertionSort keyLE).take k.toNat, rfl, h.symm,
              ?_, ?_, ?_, ?_⟩
            · intro p hp
              exact hdist p
                ((List.perm_insertionSort keyLE ks).subset (List.mem_of_mem_take hp))
            · exact (List.sorted_insertionSort keyLE ks).sublist (List.take_sublist _ _)
            · rw [← hsnd]
              exact (((List.take_sublist k.toNat (ks.insertionSort keyLE)).map
                Prod.snd).subperm).trans
                  ((List.perm_insertionSort keyLE ks).map Prod.snd).subperm
            · rw [List.length_take]
              exact Nat.min_le_left _ _

theorem querySimilar_of_reject {V D : Type} [LinearOrder D] (conn : Conn V D) (s : List Char)
    (T k : Int) (q : V) (r : ChunkRow V) (e : String) (hf : conn.fault = none)
    (hv : conn.vectorIn s = .ok q) (hk : 0 < k) (hr : r ∈ conn.chunks)
    (hT : r.textbook_id = T) (hd : conn.distance r.embedding q = .error e) :
    ∃ e', conn.querySimilar s T k = .error e' := by
  have hmem : r ∈ conn.chunks.filter (fun r => r.textbook_id = T) :=
    List.mem_filter.2 ⟨hr, by simpa using hT⟩
  obtain ⟨e', he'⟩ := keyRows_of_reject conn.distance q _ r e hmem hd
  have h1 : ¬ k < 0 := by omega
  have h2 : ¬ k = 0 := by omega
  exact ⟨e', by simp [Conn.querySimilar, hf, hv, h1, h2, he']⟩

theorem querySimilar_negative {V D : Type} [LinearOrder D] (conn : Conn V D) (s : List Char)
    (T k : Int) (hk : k < 0) : ∃ e, conn.querySimilar s T k = .error e := by
  unfold Conn.querySimilar
  cases hf : conn.fault with
  | some e => exact ⟨e, rfl⟩
  | none =>
    cases hv : conn.vectorIn s with
    | error e => exact ⟨e, rfl⟩
    | ok q => exact ⟨conn.limitError, by simp [hk]⟩

theorem querySimilar_refused {V D : Type} [LinearOrder D] (conn : Conn V D) (s : List Char)
    (T k : Int)
    (h : conn.fault ≠ none ∨ (∃ e, conn.vectorIn s = .error e) ∨ k < 0) :
    ∃ e, conn.querySimilar s T k = .error e := by
  unfold Conn.querySimilar
  cases hf : conn.fault with
  | some e => exact ⟨e, rfl⟩
  | none =>
    cases hv : conn.vectorIn s with
    | error e => exact ⟨e, rfl⟩
    | ok q =>
      rcases h with h | ⟨e, he⟩ | h
      · exact absurd hf h
      · rw [hv] at he
        exact absurd he (by simp)
      · exact ⟨conn.limitError, by simp [h]⟩

theorem delivered_sublist {V D : Type} (conn : Conn V D) (rows : List (ChunkRow V)) :
    (conn.delivered rows).Sublist rows := by
  unfold Conn.delivered
  cases conn.nextFault with
  | none => exact List.Sublist.refl rows
  | some n => exact List.take_sublist n rows

theorem search_of_ok {V D : Type} [LinearOrder D] (conn : Conn V D) (T : Int)
    (qe : List F32) (k : Int) (cs : List Chunk)
    (h : SearchSimilarChunks conn T qe k = .ok cs) :
    ∃ rows, conn.querySimilar (embeddingLiteral qe) T k = .ok rows ∧
      cs = (conn.delivered rows).map ChunkRow.toChunk := by
  unfold SearchSimilarChunks at h
  cases hq : conn.querySimilar (embeddingLiteral qe) T k with
  | error e => simp [hq] at h
  | ok rows =>
    simp only [hq] at h
    exact ⟨rows, rfl, by simpa using scanRows_of_ok conn (conn.delivered rows) [] cs h⟩

theorem search_of_query_error {V D : Type} [LinearOrder D] (conn : Conn V D) (T : Int)
    (qe : List F32) (k : Int) (e : String)
    (h : conn.querySimilar (embeddingLiteral qe) T k = .error e) :
    SearchSimilarChunks conn T qe k = .error ("failed to query similar chunks: " ++ e) := by
  simp [SearchSimilarChunks, h]

/-- C2, counterexample: the chunks of index 1 and 0 of textbook 5 are at the
same distance 0 from the query, and the chunk of index 1, which the store
visits first, is returned first. -/
theorem ties_not_ordered_by_chunk_index :
    SearchSimilarChunks exConn 5 exQuery 2
      = .ok [(exRow 11 1 "[1.000000,0.000000]").toChunk,
          (exRow 10 0 "[1.000000,0.000000]").toChunk] ∧
    exDistance (exRow 11 1 "[1.000000,0.000000]").embedding (embeddingLiteral exQuery) = .ok 0 ∧
    exDistance (exRow 10 0 "[1.000000,0.000000]").embedding (embeddingLiteral exQuery) = .ok 0 ∧
    (exRow 10 0 "[1.000000,0.000000]").toChunk.ChunkIndex
      < (exRow 11 1 "[1.000000,0.000000]").toChunk.ChunkIndex := by
  decide

/-- C2 as amended: the chunks returned by `SearchSimilarChunks` are the scans
of stored rows, listed in non-decreasing order of the distance the engine
computes between the row's embedding and the vector it reads from the literal
it was sent, `embeddingLiteral queryEmbedding`; `chunk_index` plays no part
in the order. -/
theorem search_sorted_by_distance {V D : Type} [LinearOrder D] (conn : Conn V D) (T : Int)
    (qe : List F32) (k : Int) (cs : List Chunk)
    (h : SearchSimilarChunks conn T qe k = .ok cs) :
    ∃ (q : V) (sel : List (D × ChunkRow V)),
      conn.vectorIn (embeddingLiteral qe) = .ok q ∧
      cs = sel.map (fun p => p.2.toChunk) ∧
      (∀ p ∈ sel, p.2 ∈ conn.chunks ∧ conn.distance p.2.embedding q = .ok p.1) ∧
      sel.Pairwise (fun a b => a.1 ≤ b.1) := by
  obtain ⟨rows, hq, hcs⟩ := search_of_ok conn T qe k cs h
  obtain ⟨_, _, q, sel, hv, hrows, hdist, hsorted, hsub, _⟩ :=
    querySimilar_of_ok conn _ T k rows hq
  have hkey : ∀ sel' : List (D × ChunkRow V), sel'.Sublist sel →
      (∀ p ∈ sel', p.2 ∈ conn.chunks ∧ conn.distance p.2.embedding q = .ok p.1) ∧
      sel'.Pairwise (fun a b => a.1 ≤ b.1) := by
    intro sel' hsel
    refine ⟨?_, hsorted.sublist hsel⟩
    intro p hp
    have hp' : p ∈ sel := hsel.subset hp
    refine ⟨?_, hdist p hp'⟩
    have : p.2 ∈ sel.map Prod.snd := List.mem_map_of_mem _ hp'
    exact (List.mem_filter.1 (hsub.subset this)).1
  cases hn : conn.nextFault with
  | none =>
    refine ⟨q, sel, hv, ?_, hkey _ (List.Sublist.refl _)⟩
    rw [hcs, hrows]
    simp [Conn.delivered, hn, Function.comp_def]
  | some n =>
    refine ⟨q, sel.take n, hv, ?_, hkey _ (List.take_sublist _ _)⟩
    rw [hcs, hrows]
    simp [Conn.delivered, hn, List.map_take, Function.comp_def]

theorem search_sorted_by_distance_witness :
    ∃ (q : List Char) (sel : List (Nat × ChunkRow (List Char))),
      exConn.vectorIn (embeddingLiteral exQuery) = .ok q ∧
      [(exRow 11 1 "[1.000000,0.000000]").toChunk, (exRow 10 0 "[1.000000,0.000000]").toChunk,
        (exRow 12 2 "[0.000000,1.000000]").toChunk] = sel.map (fun p => p.2.toChunk) ∧
      (∀ p ∈ sel, p.2 ∈ exConn.chunks ∧ exConn.distance p.2.embedding q = .ok p.1) ∧
      sel.Pairwise (fun a b => a.1 ≤ b.1) :=
  search_sorted_by_distance exConn 5 exQuery 3 _ (by decide)

/-- C3, counterexample: textbook 6 has zero chunks, and the search on it
fails for `topK = -1`, fails for the empty embedding, and fails with the
connection down. -/
theorem zero_chunks_can_fail :
    chunkCount exConn 6 = 0 ∧
    SearchSimilarChunks exConn 6 exQuery (-1)
      = .error "failed to query similar chunks: pq: LIMIT must not be negative (2201W)" ∧
    (∃ e, SearchSimilarChunks exConn 6 [] 3
      = .error ("failed to query similar chunks: " ++ e)) ∧
    (∃ e, SearchSimilarChunks exConnDown 6 exQuery 3
      = .error ("failed to query similar chunks: " ++ e)) := by
  refine ⟨by decide, by decide, ⟨"vector must have at least 1 dimension", by decide⟩,
    ⟨"connection refused", by decide⟩⟩

/-- C3 as amended: on success the result of `SearchSimilarChunks` is a
selection of the chunk rows of the textbook asked for (each row at most
once), every returned chunk has that `textbook_id`, and the length is at most
`min(k, chunkCount(T))`; for a textbook with zero chunks the result is the
empty sequence without error provided the engine accepts the statement: the
connection is healthy, the literal is accepted as a vector and `k` is not
negative; when one of the three fails the result is a "failed to query
similar chunks" error, whatever the textbook holds. -/
theorem search_scope_and_bound {V D : Type} [LinearOrder D] (conn conn1 : Conn V D)
    (T : Int) (qe : List F32) (k : Int) (cs : List Chunk) (T0 : Int) (qe0 : List F32)
    (k0 : Int) (v0 : V) (T1 : Int) (qe1 : List F32) (k1 : Int)
    (h : SearchSimilarChunks conn T qe k = .ok cs)
    (hzero : chunkCount conn T0 = 0) (hconn : conn.fault = none)
    (hv0 : conn.vectorIn (embeddingLiteral qe0) = .ok v0) (hk0 : 0 ≤ k0)
    (hrefused : conn1.fault ≠ none ∨
      (∃ e, conn1.vectorIn (embeddingLiteral qe1) = .error e) ∨ k1 < 0) :
    (∃ rows : List (ChunkRow V),
      rows.Subperm (conn.chunks.filter (fun r => r.textbook_id = T)) ∧
      cs = rows.map ChunkRow.toChunk) ∧
    (∀ c ∈ cs, c.TextbookID = T) ∧
    (cs.length : Int) ≤ min k (chunkCount conn T) ∧
    SearchSimilarChunks conn T0 qe0 k0 = .ok [] ∧
    (∃ e, SearchSimilarChunks conn1 T1 qe1 k1
      = .error ("failed to query similar chunks: " ++ e)) := by
  obtain ⟨rows, hq, hcs⟩ := search_of_ok conn T qe k cs h
  obtain ⟨hk, _, q, sel, _, hrows, _, _, hsub0, hlen0⟩ := querySimilar_of_ok conn _ T k rows hq
  have hdel : (conn.delivered rows).Sublist rows := delivered_sublist conn rows
  rw [← hrows] at hsub0
  have hsub : (conn.delivered rows).Subperm (conn.chunks.filter (fun r => r.textbook_id = T)) :=
    hdel.subperm.trans hsub0
  have hlen : cs.length ≤ min k.toNat (chunkCount conn T) := by
    have h1 : cs.length ≤ rows.length := by
      rw [hcs, List.length_map]
      exact hdel.length_le
    have h2 : rows.length ≤ k.toNat := by
      rw [hrows, List.length_map]
      exact hlen0
    have h3 : rows.length ≤ chunkCount conn T := hsub0.length_le
    exact le_min (h1.trans h2) (h1.trans h3)
  refine ⟨⟨conn.delivered rows, hsub, hcs⟩, ?_, ?_, ?_, ?_⟩
  · intro c hc
    rw [hcs] at hc
    obtain ⟨r, hr, rfl⟩ := List.mem_map.1 hc
    have hr' := (List.mem_filter.1 (hsub.subset hr)).2
    simpa [ChunkRow.toChunk] using hr'
  · omega
  · have hfil : conn.chunks.filter (fun r => r.textbook_id = T0) = [] :=
      List.length_eq_zero.1 hzero
    have hneg : ¬ k0 < 0 := by omega
    have hq0 : conn.querySimilar (embeddingLiteral qe0) T0 k0 = .ok [] := by
      by_cases hk00 : k0 = 0
      · simp [Conn.querySimilar, hconn, hv0, hk00]
      · simp [Conn.querySimilar, hconn, hv0, hneg, hk00, hfil, keyRows]
    have hd0 : conn.delivered [] = [] := List.eq_nil_of_sublist_nil (delivered_sublist conn [])
    simp [SearchSimilarChunks, hq0, hd0, scanRows]
  · obtain ⟨e, he⟩ := querySimilar_refused conn1 (embeddingLiteral qe1) T1 k1 hrefused
    exact ⟨e, search_of_query_error conn1 T1 qe1 k1 e he⟩

theorem search_scope_and_bound_witness :
    (∃ rows : List (ChunkRow (List Char)),
      rows.Subperm (exConn.chunks.filter (fun r => r.textbook_id = 5)) ∧
      [(exRow 11 1 "[1.000000,0.000000]").toChunk, (exRow 10 0 "[1.000000,0.000000]").toChunk]
        = rows.map ChunkRow.toChunk) ∧
    (∀ c ∈ [(exRow 11 1 "[1.000000,0.000000]").toChunk,
        (exRow 10 0 "[1.000000,0.000000]").toChunk], c.TextbookID = 5) ∧
    (([(exRow 11 1 "[1.000000,0.000000]").toChunk,
        (exRow 10 0 "[1.000000,0.000000]").toChunk].length : Nat) : Int)
      ≤ min 2 (chunkCount exConn 5) ∧
    SearchSimilarChunks exConn 6 exQueryShort 4 = .ok [] ∧
    (∃ e, SearchSimilarChunks exConn 6 exQuery (-1)
      = .error ("failed to query similar chunks: " ++ e)) :=
  search_scope_and_bound exConn exConn 5 exQuery 2 _ 6 exQueryShort 4
    (embeddingLiteral exQueryShort) 6 exQuery (-1)
    (by decide) (by decide) (by decide) (by decide) (by decide)
    (Or.inr (Or.inr (by decide)))

/-- C4, counterexample: on the healthy store `topK = -1` gives an error, the
engine rejecting the negative `LIMIT`; and with the connection down
`topK = 0` gives an error too. -/
theorem nonpositive_topK_can_fail :
    SearchSimilarChunks exConn 5 exQuery (-1)
      = .error "failed to query similar chunks: pq: LIMIT must not be negative (2201W)" ∧
    SearchSimilarChunks exConnDown 5 exQuery 0
      = .error "failed to query similar chunks: connection refused" := by
  decide

/-- C4 as amended: `SearchSimilarChunks` has no guard on `topK`. For
`topK = 0` it returns the empty sequence and no error whenever the query
itself succeeds; for every negative `topK`, on every store, the result is a
"failed to query similar chunks" error, whose cause is the engine's error for
a negative `LIMIT` when the connection is healthy and the literal accepted;
and whatever `topK` is, a failing query is returned as the error "failed to
query similar chunks: " followed by the cause. -/
theorem search_nonpositive_topK {V D : Type} [LinearOrder D]
    (conn conn' conn'' conn3 : Conn V D) (T T' T'' T3 : Int) (qe qe' qe'' qe3 : List F32)
    (k k'' k3 : Int) (rows : List (ChunkRow V)) (e'' : String) (v3 : V)
    (hq : conn.querySimilar (embeddingLiteral qe) T 0 = .ok rows) (hk : k < 0)
    (hfail : conn''.querySimilar (embeddingLiteral qe'') T'' k'' = .error e'')
    (hhealthy3 : conn3.fault = none)
    (hvec3 : conn3.vectorIn (embeddingLiteral qe3) = .ok v3) (hk3 : k3 < 0) :
    SearchSimilarChunks conn T qe 0 = .ok [] ∧
    (∃ e, SearchSimilarChunks conn' T' qe' k
      = .error ("failed to query similar chunks: " ++ e)) ∧
    SearchSimilarChunks conn'' T'' qe'' k''
      = .error ("failed to query similar chunks: " ++ e'') ∧
    SearchSimilarChunks conn3 T3 qe3 k3
      = .error ("failed to query similar chunks: " ++ conn3.limitError) := by
  refine ⟨?_, ?_, search_of_query_error conn'' T'' qe'' k'' e'' hfail, ?_⟩
  · obtain ⟨_, _, q, sel, _, hrows, _, _, _, hlen⟩ := querySimilar_of_ok conn _ T 0 rows hq
    have hsel : sel = [] := List.length_eq_zero.1 (by simpa using hlen)
    have hnil : rows = [] := by rw [hrows, hsel]; rfl
    have hd0 : conn.delivered [] = [] := List.eq_nil_of_sublist_nil (delivered_sublist conn [])
    simp [SearchSimilarChunks, hq, hnil, hd0, scanRows]
  · obtain ⟨e, he⟩ := querySimilar_negative conn' (embeddingLiteral qe') T' k hk
    exact ⟨e, search_of_query_error conn' T' qe' k e he⟩
  · apply search_of_query_error
    simp [Conn.querySimilar, hhealthy3, hvec3, hk3]

theorem search_nonpositive_topK_witness :
    SearchSimilarChunks exConn 5 exQuery 0 = .ok [] ∧
    (∃ e, SearchSimilarChunks exConn 5 exQueryShort (-1)
      = .error ("failed to query similar chunks: " ++ e)) ∧
    SearchSimilarChunks exConnDown 5 exQuery 0
      = .error ("failed to query similar chunks: " ++ "connection refused") ∧
    SearchSimilarChunks exConn 5 exQuery (-2)
      = .error ("failed to query similar chunks: " ++ exConn.limitError) :=
  search_nonpositive_topK exConn exConn exConnDown exConn 5 5 5 5 exQuery exQueryShort exQuery
    exQuery (-1) 0 (-2) [] "connection refused" (embeddingLiteral exQuery)
    (by decide) (by decide) (by decide) (by decide) (by decide) (by decide)

/-- C7, counterexample: the stored vectors have two components. A query
embedding with one component against a textbook without chunks succeeds with
the empty result; against textbook 5 the engine rejects it and the error has
the same form as the error of a connection failure. -/
theorem wrong_dimension_not_validated :
    exQueryShort.length = 1 ∧ (∀ r ∈ exConn.chunks, exDim r.embedding = 2) ∧
    SearchSimilarChunks exConn 6 exQueryShort 3 = .ok [] ∧
    (∃ e, SearchSimilarChunks exConn 5 exQueryShort 3
      = .error ("failed to query similar chunks: " ++ e)) ∧
    (∃ e, SearchSimilarChunks exConnDown 5 exQuery 3
      = .error ("failed to query similar chunks: " ++ e)) := by
  refine ⟨by decide, by decide, by decide, ⟨"different vector dimensions", by decide⟩,
    ⟨"connection refused", by decide⟩⟩

/-- C7 as amended: `SearchSimilarChunks` does not check the length of the
query embedding and has no validation error. Whatever the embedding, when the
query succeeds and the delivered rows scan, the result is the scan of the
delivered rows (all rows, or those before a break of the stream, which is not
reported). On a healthy connection an embedding whose literal the engine
rejects, or that the distance operator rejects on a row of the textbook with
`topK > 0`, gives an error "failed to query similar chunks: " followed by the
cause, as does every other failure of the query; and every error returned is
that error of the query or a "failed to scan chunk: " error. -/
theorem search_errors_are_query_or_scan {V D : Type} [LinearOrder D]
    (conn conn' conn'' conn3 conn4 : Conn V D) (T T' T'' T3 T4 : Int)
    (qe qe' qe'' qe3 qe4 : List F32) (k k' k'' k3 k4 : Int) (rows : List (ChunkRow V))
    (msg e'' e3 e4 : String) (q4 : V) (r4 : ChunkRow V)
    (hq : conn.querySimilar (embeddingLiteral qe) T k = .ok rows)
    (hscan : ∀ r ∈ conn.delivered rows, conn.scanFault r = none)
    (herr : SearchSimilarChunks conn' T' qe' k' = .error msg)
    (hhealthy : conn''.fault = none)
    (hreject : conn''.vectorIn (embeddingLiteral qe'') = .error e'')
    (hfail : conn3.querySimilar (embeddingLiteral qe3) T3 k3 = .error e3)
    (hhealthy4 : conn4.fault = none)
    (hvec4 : conn4.vectorIn (embeddingLiteral qe4) = .ok q4) (hk4 : 0 < k4)
    (hrow4 : r4 ∈ conn4.chunks) (hT4 : r4.textbook_id = T4)
    (hdist4 : conn4.distance r4.embedding q4 = .error e4) :
    SearchSimilarChunks conn T qe k = .ok ((conn.delivered rows).map ChunkRow.toChunk) ∧
    ((∃ e, conn'.querySimilar (embeddingLiteral qe') T' k' = .error e ∧
        msg = "failed to query similar chunks: " ++ e) ∨
      ∃ e, msg = "failed to scan chunk: " ++ e) ∧
    SearchSimilarChunks conn'' T'' qe'' k''
      = .error ("failed to query similar chunks: " ++ e'') ∧
    SearchSimilarChunks conn3 T3 qe3 k3 = .error ("failed to query similar chunks: " ++ e3) ∧
    (∃ e, SearchSimilarChunks conn4 T4 qe4 k4
      = .error ("failed to query similar chunks: " ++ e)) := by
  refine ⟨?_, ?_, ?_, search_of_query_error conn3 T3 qe3 k3 e3 hfail, ?_⟩
  · have := scanRows_no_fault conn (conn.delivered rows) hscan []
    simpa [SearchSimilarChunks, hq] using this
  · unfold SearchSimilarChunks at herr
    cases hq' : conn'.querySimilar (embeddingLiteral qe') T' k' with
    | error e =>
      simp only [hq', Except.error.injEq] at herr
      exact Or.inl ⟨e, rfl, herr.symm⟩
    | ok rows' =>
      simp only [hq'] at herr
      exact Or.inr (scanRows_of_error conn' (conn'.delivered rows') [] msg herr)
  · apply search_of_query_error
    simp [Conn.querySimilar, hhealthy, hreject]
  · obtain ⟨e, he⟩ := querySimilar_of_reject conn4 (embeddingLiteral qe4) T4 k4 q4 r4 e4
      hhealthy4 hvec4 hk4 hrow4 hT4 hdist4
    exact ⟨e, search_of_query_error conn4 T4 qe4 k4 e he⟩

theorem search_errors_are_query_or_scan_witness :
    SearchSimilarChunks exConnCut 5 exQuery 3
      = .ok [(exRow 11 1 "[1.000000,0.000000]").toChunk] ∧
    ((∃ e, exConn.querySimilar (embeddingLiteral exQueryShort) 5 3 = .error e ∧
        "failed to query similar chunks: different vector dimensions"
          = "failed to query similar chunks: " ++ e) ∨
      ∃ e, "failed to query similar chunks: different vector dimensions"
        = "failed to scan chunk: " ++ e) ∧
    SearchSimilarChunks exConn 5 [] 3
      = .error ("failed to query similar chunks: " ++ "vector must have at least 1 dimension") ∧
    SearchSimilarChunks exConnDown 5 exQuery 3
      = .error ("failed to query similar chunks: " ++ "connection refused") ∧
    (∃ e, SearchSimilarChunks exConn 5 exQueryShort 1
      = .error ("failed to query similar chunks: " ++ e)) :=
  search_errors_are_query_or_scan exConnCut exConn exConn exConnDown exConn 5 5 5 5 5 exQuery
    exQueryShort [] exQuery exQueryShort 3 3 3 3 1
    [exRow 11 1 "[1.000000,0.000000]", exRow 10 0 "[1.000000,0.000000]",
      exRow 12 2 "[0.000000,1.000000]"]
    "failed to query similar chunks: different vector dimensions"
    "vector must have at least 1 dimension" "connection refused"
    "different vector dimensions" (embeddingLiteral exQueryShort)
    (exRow 11 1 "[1.000000,0.000000]")
    (by decide) (by decide) (by decide) (by decide) (by decide) (by decide) (by decide)
    (by decide) (by decide) (by decide) (by decide) (by decide)

/-! ## Handlers: ownership, degraded count, failures -/

/-- C1: in `HandleGetTextbook` and `HandleGetTextbookStatus`, when the store
returns a textbook whose owner is not the resolved caller, the response is
the 403 "Permission denied" failure, a constant that carries no field of the
textbook, so two stores returning different textbooks to a non-owner give the
same response; the only storage operation invoked is `GetTextbook`, the chunk
count is not fetched. -/
theorem ownership_gating {V D : Type} (GetUserID : Request → Option Int)
    (db db' : DB V D) (r : Request) (U id : Int) (T T' : Textbook)
    (hm : r.Method = "GET") (hu : GetUserID r = some U)
    (hid : extractIDFromPath r.Path "/api/textbooks/" = .ok id)
    (hT : GetTextbook db.conn id = .ok T) (hT' : GetTextbook db'.conn id = .ok T')
    (hne : U ≠ T.UserID) (hne' : U ≠ T'.UserID) :
    HandleGetTextbook GetUserID db r = (httpError "Permission denied" 403, [.GetTextbook id]) ∧
    HandleGetTextbookStatus GetUserID db r
      = (httpError "Permission denied" 403, [.GetTextbook id]) ∧
    HandleGetTextbook GetUserID db r = HandleGetTextbook GetUserID db' r ∧
    HandleGetTextbookStatus GetUserID db r = HandleGetTextbookStatus GetUserID db' r := by
  have h1 : T.UserID ≠ U := fun h => hne h.symm
  have h2 : T'.UserID ≠ U := fun h => hne' h.symm
  simp [HandleGetTextbook, HandleGetTextbookStatus, hm, hu, hid, hT, hT', h1, h2]

theorem ownership_gating_witness :
    HandleGetTextbook (exAuth (some 3)) (exDB exConn (.ok 3)) exGet
      = (httpError "Permission denied" 403, [.GetTextbook 5]) ∧
    HandleGetTextbookStatus (exAuth (some 3)) (exDB exConn (.ok 3)) exGet
      = (httpError "Permission denied" 403, [.GetTextbook 5]) ∧
    HandleGetTextbook (exAuth (some 3)) (exDB exConn (.ok 3)) exGet
      = HandleGetTextbook (exAuth (some 3)) (exDB exConnAlt (.ok 7)) exGet ∧
    HandleGetTextbookStatus (exAuth (some 3)) (exDB exConn (.ok 3)) exGet
      = HandleGetTextbookStatus (exAuth (some 3)) (exDB exConnAlt (.ok 7)) exGet :=
  ownership_gating (exAuth (some 3)) (exDB exConn (.ok 3)) (exDB exConnAlt (.ok 7)) exGet 3 5
    exTextbook exTextbookAlt (by decide) (by decide) (by decide) (by decide) (by decide)
    (by decide) (by decide)

/-- C5: in `HandleGetTextbookStatus`, for a textbook owned by the caller, a
failing `GetTextbookChunkCount` still gives the 200 status payload with
`chunk_count` 0 and the stored `textbook_id`, `title`, `processed` and
`uploaded_at`; a count that succeeds with `n` gives `chunk_count` `n`. -/
theorem status_degraded_count {V D : Type} (GetUserID : Request → Option Int)
    (db db' : DB V D) (r : Request) (U id : Int) (T T' : Textbook) (e : String) (n : Int)
    (hm : r.Method = "GET") (hu : GetUserID r = some U)
    (hid : extractIDFromPath r.Path "/api/textbooks/" = .ok id)
    (hT : GetTextbook db.conn id = .ok T) (hown : T.UserID = U)
    (hT' : GetTextbook db'.conn id = .ok T') (hown' : T'.UserID = U)
    (hfail : db.GetTextbookChunkCount id = .error e)
    (hcount : db'.GetTextbookChunkCount id = .ok n) :
    HandleGetTextbookStatus GetUserID db r
      = ({ code := 200, body := .status T.ID T.Title T.Processed 0 T.UploadedAt },
          [.GetTextbook id, .GetTextbookChunkCount id]) ∧
    HandleGetTextbookStatus GetUserID db' r
      = ({ code := 200, body := .status T'.ID T'.Title T'.Processed n T'.UploadedAt },
          [.GetTextbook id, .GetTextbookChunkCount id]) := by
  simp [HandleGetTextbookStatus, hm, hu, hid, hT, hT', hown, hown', hfail, hcount, jsonOK]

theorem status_degraded_count_witness :
    HandleGetTextbookStatus (exAuth (some 9)) (exDB exConn (.error "count failed")) exGetStatus
      = ({ code := 200, body := .status 5 "Algebra" false 0 1700000000 },
          [.GetTextbook 5, .GetTextbookChunkCount 5]) ∧
    HandleGetTextbookStatus (exAuth (some 9)) (exDB exConnAlt (.ok 3)) exGetStatus
      = ({ code := 200, body := .status 5 "Geometry" true 3 1800000000 },
          [.GetTextbook 5, .GetTextbookChunkCount 5]) :=
  status_degraded_count (exAuth (some 9)) (exDB exConn (.error "count failed"))
    (exDB exConnAlt (.ok 3)) exGetStatus 9 5 exTextbook exTextbookAlt "count failed" 3
    (by decide) (by decide) (by decide) (by decide) (by decide) (by decide) (by decide)
    (by decide) (by decide)

/-- C6, the code at the failing input: with the connection down `GetTextbook`
fails in its "failed to get textbook" branch, and both handlers answer
404 "Textbook not found" instead of an internal failure. -/
theorem storage_failure_reported_not_found :
    GetTextbook exConnDown 5 = .error "failed to get textbook: connection refused" ∧
    (HandleGetTextbook (exAuth (some 9)) (exDB exConnDown (.ok 3)) exGet).1
      = httpError "Textbook not found" 404 ∧
    (HandleGetTextbookStatus (exAuth (some 9)) (exDB exConnDown (.ok 3)) exGetStatus).1
      = httpError "Textbook not found" 404 := by
  decide

/-- C9, counterexample: a `POST` request without a valid session is answered
405 "Method not allowed" by `HandleListTextbooks`, not 401 "Unauthorized". -/
theorem unauthorized_not_for_every_method :
    (HandleListTextbooks (exAuth none) (exDB exConn (.ok 3)) exPost).1
      = httpError "Method not allowed" 405 ∧
    (HandleListTextbooks (exAuth none) (exDB exConn (.ok 3)) exPost).1
      ≠ httpError "Unauthorized" 401 := by
  decide

/-- C9 as amended: for a request of any path whose method is the one the
handler accepts (`GET`, and `DELETE` for `HandleDeleteTextbook`) and for which
identity resolution reports no valid session, each of the four handlers
answers 401 "Unauthorized" and invokes no storage operation; for a request of
any other method the method check comes first, and the handler answers
405 "Method not allowed", with or without a session, and invokes no storage
operation. -/
theorem unauthorized_before_storage {V D : Type} (GetUserID : Request → Option Int)
    (db : DB V D) (r rd rg rnd : Request) (hm : r.Method = "GET") (hu : GetUserID r = none)
    (hmd : rd.Method = "DELETE") (hud : GetUserID rd = none)
    (hng : rg.Method ≠ "GET") (hnd : rnd.Method ≠ "DELETE") :
    HandleListTextbooks GetUserID db r = (httpError "Unauthorized" 401, []) ∧
    HandleGetTextbook GetUserID db r = (httpError "Unauthorized" 401, []) ∧
    HandleGetTextbookStatus GetUserID db r = (httpError "Unauthorized" 401, []) ∧
    HandleDeleteTextbook GetUserID db rd = (httpError "Unauthorized" 401, []) ∧
    HandleListTextbooks GetUserID db rg = (httpError "Method not allowed" 405, []) ∧
    HandleGetTextbook GetUserID db rg = (httpError "Method not allowed" 405, []) ∧
    HandleGetTextbookStatus GetUserID db rg = (httpError "Method not allowed" 405, []) ∧
    HandleDeleteTextbook GetUserID db rnd = (httpError "Method not allowed" 405, []) := by
  refine ⟨?_, ?_, ?_, ?_, ?_, ?_, ?_, ?_⟩
  · simp [HandleListTextbooks, hm, hu]
  · simp [HandleGetTextbook, hm, hu]
  · simp [HandleGetTextbookStatus, hm, hu]
  · simp [HandleDeleteTextbook, hmd, hud]
  · simp [HandleListTextbooks, hng]
  · simp [HandleGetTextbook, hng]
  · simp [HandleGetTextbookStatus, hng]
  · simp [HandleDeleteTextbook, hnd]

theorem unauthorized_before_storage_witness :
    HandleListTextbooks (exAuth none) (exDB exConn (.ok 3)) exGet
      = (httpError "Unauthorized" 401, []) ∧
    HandleGetTextbook (exAuth none) (exDB exConn (.ok 3)) exGet
      = (httpError "Unauthorized" 401, []) ∧
    HandleGetTextbookStatus (exAuth none) (exDB exConn (.ok 3)) exGet
      = (httpError "Unauthorized" 401, []) ∧
    HandleDeleteTextbook (exAuth none) (exDB exConn (.ok 3)) exDelete
      = (httpError "Unauthorized" 401, []) ∧
    HandleListTextbooks (exAuth none) (exDB exConn (.ok 3)) exPost
      = (httpError "Method not allowed" 405, []) ∧
    HandleGetTextbook (exAuth none) (exDB exConn (.ok 3)) exPost
      = (httpError "Method not allowed" 405, []) ∧
    HandleGetTextbookStatus (exAuth none) (exDB exConn (.ok 3)) exPost
      = (httpError "Method not allowed" 405, []) ∧
    HandleDeleteTextbook (exAuth none) (exDB exConn (.ok 3)) exPost
      = (httpError "Method not allowed" 405, []) :=
  unauthorized_before_storage (exAuth none) (exDB exConn (.ok 3)) exGet exDelete exPost exPost
    (by decide) (by decide) (by decide) (by decide) (by decide) (by decide)

/-! ## `extractIDFromPath` against its reference -/

/-- C10: `extractIDFromPath` is "parse the first path segment after the
prefix". With `seg` the part before the first `/` of the path without one
leading prefix, it returns `n` without error exactly when `seg` is an
optionally signed, non-empty string of decimal digits denoting `n` within
`int`, and an error exactly for every other `seg`; for every `k` in range both
`/api/textbooks/<k>` and `/api/textbooks/<k>/status` yield `k`; and on an
error `HandleGetTextbook` and `HandleGetTextbookStatus` answer
400 "Invalid textbook ID" without any storage call. -/
theorem extractIDFromPath_refines_reference {V D : Type} (GetUserID : Request → Option Int)
    (db : DB V D) (path pre : String) (k : Nat) (r : Request) (U : Int)
    (hk : k < 2 ^ 63) (hm : r.Method = "GET") (hu : GetUserID r = some U)
    (hbad : ¬ ∃ n, IsDecimalInt
      (firstSegment (afterPrefix r.Path.data "/api/textbooks/".data)) n) :
    (∀ n, extractIDFromPath path pre = .ok n ↔
      IsDecimalInt (firstSegment (afterPrefix path.data pre.data)) n) ∧
    ((∃ e, extractIDFromPath path pre = .error e) ↔
      ¬ ∃ n, IsDecimalInt (firstSegment (afterPrefix path.data pre.data)) n) ∧
    extractIDFromPath ("/api/textbooks/" ++ toString k) "/api/textbooks/" = .ok (k : Int) ∧
    extractIDFromPath ("/api/textbooks/" ++ toString k ++ "/status") "/api/textbooks/"
      = .ok (k : Int) ∧
    HandleGetTextbook GetUserID db r = (httpError "Invalid textbook ID" 400, []) ∧
    HandleGetTextbookStatus GetUserID db r = (httpError "Invalid textbook ID" 400, []) := by
  have hdig := (toDigits_spec k).2.1
  have hrepr : (toString k).data = Nat.toDigits 10 k := rfl
  refine ⟨extractIDFromPath_ok_iff path pre, extractIDFromPath_error_iff path pre, ?_, ?_, ?_⟩
  · rw [extractIDFromPath_ok_iff, String.data_append, hrepr, afterPrefix_append,
      (firstSegment_digits _ [] hdig).1]
    exact toDigits_isDecimalInt k hk
  · have hst : "/status".data = '/' :: "status".data := rfl
    rw [extractIDFromPath_ok_iff, String.data_append, String.data_append, hrepr,
      List.append_assoc, afterPrefix_append, hst, (firstSegment_digits _ _ hdig).2]
    exact toDigits_isDecimalInt k hk
  · obtain ⟨e, he⟩ := (extractIDFromPath_error_iff r.Path "/api/textbooks/").2 hbad
    simp [HandleGetTextbook, HandleGetTextbookStatus, hm, hu, he]

theorem extractIDFromPath_refines_reference_witness :
    (∀ n, extractIDFromPath "/api/textbooks/-42/status" "/api/textbooks/" = .ok n ↔
      IsDecimalInt (firstSegment
        (afterPrefix "/api/textbooks/-42/status".data "/api/textbooks/".data)) n) ∧
    ((∃ e, extractIDFromPath "/api/textbooks/-42/status" "/api/textbooks/" = .error e) ↔
      ¬ ∃ n, IsDecimalInt (firstSegment
        (afterPrefix "/api/textbooks/-42/status".data "/api/textbooks/".data)) n) ∧
    extractIDFromPath ("/api/textbooks/" ++ toString 123) "/api/textbooks/" = .ok ((123 : Nat) : Int) ∧
    extractIDFromPath ("/api/textbooks/" ++ toString 123 ++ "/status") "/api/textbooks/"
      = .ok ((123 : Nat) : Int) ∧
    HandleGetTextbook (exAuth (some 9)) (exDB exConn (.ok 3)) exGetBad
      = (httpError "Invalid textbook ID" 400, []) ∧
    HandleGetTextbookStatus (exAuth (some 9)) (exDB exConn (.ok 3)) exGetBad
      = (httpError "Invalid textbook ID" 400, []) :=
  extractIDFromPath_refines_reference (exAuth (some 9)) (exDB exConn (.ok 3))
    "/api/textbooks/-42/status" "/api/textbooks/" 123 exGetBad 9 (by decide) (by decide)
    (by decide) ((extractIDFromPath_error_iff exGetBad.Path "/api/textbooks/").1 ⟨_, rfl⟩)

/-! ## The vector literal -/

/-- C8, counterexample: the `float32` values nearest to 0.0000001 and
0.0000002 are different numbers, and the one-component embeddings made of
them have the same literal `[0.000000]`. -/
theorem literal_not_injective :
    exTiny1.value ≠ exTiny2.value ∧
    embeddingLiteral [exTiny1] = "[0.000000]".data ∧
    embeddingLiteral [exTiny2] = "[0.000000]".data := by
  refine ⟨?_, by decide, by decide⟩
  simp only [F32.value, exTiny1, exTiny2, Bool.false_eq_true, if_false, ne_eq, Option.some.injEq]
  norm_num

/-- C8 as amended: the literal is `[`, the `%f` texts of the components
joined by commas, `]`, and no component text contains a comma; the text of a
finite component is an optional `-`, integer digits, `.` and exactly six
fraction digits, which denote the magnitude rounded to the nearest multiple
of `10^-6` (ties to even), so within `5 * 10^-7` of the component and not
always equal to it. -/
theorem literal_six_decimals (e : List F32) (neg : Bool) (mant : Nat) (exp : Int) :
    embeddingLiteral e = ['['] ++ [','].intercalate (e.map fmtF) ++ [']'] ∧
    (∀ v ∈ e, ',' ∉ fmtF v) ∧
    (∃ I F : List Char,
      fmtF (.finite neg mant exp) = (if neg then ['-'] else []) ++ I ++ ['.'] ++ F ∧
      I ≠ [] ∧ (∀ c ∈ I ++ F, c.isDigit = true) ∧ F.length = 6 ∧
      decimalValue I * 10 ^ 6 + decimalValue F = scaled6 mant exp) ∧
    |((scaled6 mant exp : ℚ) / 10 ^ 6) - (mant : ℚ) * (2 : ℚ) ^ exp| ≤ 1 / (2 * 10 ^ 6) := by
  refine ⟨?_, fun v _ => fmtF_no_comma v, fmtF_finite_spec neg mant exp,
    scaled6_error mant exp⟩
  rw [embeddingLiteral, arrayToString_eq_intercalate]

end Lexra
